import Mathlib

/-
Shallow embedding of the with-backoff library.

The executor `withBackoff` (src/with-backoff.ts) is a sequential retry loop:
it merges options, generates the full delay list up front via `createDelayList`
(src/create-delay-list.ts), then repeatedly invokes the operation, consults the
`isRetryable` predicate on failure, reports retries through `onRetry`, waits,
and increments the attempt counter.  The model makes every observable step
explicit as an event trace (operation invocations, predicate calls, observer
calls, waits) paired with the final outcome.  The cancellation signal is
modelled statically: the claims under verification only concern signals that
are already aborted before the run or never aborted, and the source loop reads
`signal.aborted` as an ordinary boolean at each of its check points.
-/

namespace WithBackoff

/-- Backoff strategy, mirroring the TBackoffStrategy string union in the source. -/
inductive TBackoffStrategy where
  | exponential
  | linear
deriving DecidableEq

/-- Static model of an AbortSignal: whether it is aborted, and its reason.
The reason is an opaque caller-supplied value, modelled by a natural number. -/
structure AbortSignalM where
  aborted : Bool
  reason : Nat
deriving DecidableEq

/-- Merged backoff options (the Required TBackoffOptions produced by spreading
DEFAULT_OPTIONS under the caller's options), minus the two function-valued
fields `onRetry` and `isRetryable`, which the model passes separately. -/
structure TBackoffOptionsM where
  maxAttempts : Nat
  delayMs : Rat
  delayFactor : Rat
  jitter : Rat
  strategy : TBackoffStrategy
  signal : Option AbortSignalM
deriving DecidableEq

/-- DEFAULT_OPTIONS from src/with-backoff.ts (function fields omitted). -/
def DEFAULT_OPTIONS : TBackoffOptionsM :=
  ⟨6, 20, 4, 0, TBackoffStrategy.exponential, none⟩

/-- createDelayList from src/create-delay-list.ts.  `randoms i` stands for the
value Math.random() returns for the i-th generated entry; the JS expression
`jitter! || 0` equals `jitter` for every rational jitter value (0 || 0 is 0). -/
def createDelayList (options : TBackoffOptionsM) (randoms : Nat → Rat) : List Rat :=
  match options.strategy with
  | .exponential =>
      (List.range options.maxAttempts).map fun i =>
        let baseDelay := options.delayMs * options.delayFactor ^ i
        baseDelay + baseDelay * options.jitter * randoms i
  | .linear =>
      (List.range options.maxAttempts).map fun i =>
        let baseDelay := options.delayMs
        baseDelay + baseDelay * options.jitter * randoms i

/-- Model of a JS error value flowing through the executor: either an instance
of the library's AbortError class (message plus optional cause), or an opaque
operation error identified by a number, or a fresh generic Error with the
given message. -/
inductive JsError where
  | abortError (message : String) (cause : Option Nat)
  | plain (id : Nat)
  | generic (message : String)
deriving DecidableEq

/-- The `error instanceof AbortError` test of the source. -/
def isAbortError : JsError → Bool
  | .abortError _ _ => true
  | _ => false

/-- Outcome of one invocation of the operation: resolve with a value or reject
with an error. -/
inductive OpOutcome (α : Type) where
  | success (v : α)
  | failure (e : JsError)
deriving DecidableEq

/-- Observable events of one executor run, in execution order. -/
inductive Ev where
  | invoke (attempt : Nat)
  | predCall (error : JsError)
  | retryCall (attempt : Nat) (delay : Rat) (error : JsError)
  | waitCall (delay : Rat)
deriving DecidableEq

/-- Final outcome of an executor run.  `shiftOnEmpty` marks the (claimed
unreachable) situation where `delays.shift()!` runs on an empty list and the
non-null assertion would observe undefined. -/
inductive BResult (α : Type) where
  | ok (v : α)
  | thrown (e : JsError)
  | shiftOnEmpty
deriving DecidableEq

/-- The JS truthiness test `signal?.aborted` (undefined is falsy). -/
def signalAborted : Option AbortSignalM → Bool
  | none => false
  | some s => s.aborted

/-- The while loop of withBackoff, from `while (attempt <= maxAttempts &&
!signal?.aborted)` through the trailing throws.  `operation k` is the outcome
of the k-th invocation (attempt numbers are 1-based).  Events are recorded in
the order the source awaits them: invocation, then on failure the predicate
call, then the observer call with the shifted delay, then the wait.  A signal
that is aborted on entry makes the loop condition false and the post-loop
`throw new AbortError("Backoff aborted", signal.reason)` fire. -/
def withBackoffLoop {α : Type} (maxAttempts : Nat) (isRetryable : JsError → Bool)
    (operation : Nat → OpOutcome α) (signal : Option AbortSignalM)
    (attempt : Nat) (delays : List Rat) : List Ev × BResult α :=
  if signalAborted signal then
    ([], .thrown (.abortError "Backoff aborted" (signal.map AbortSignalM.reason)))
  else if attempt ≤ maxAttempts then
    match operation attempt with
    | .success v => ([.invoke attempt], .ok v)
    | .failure e =>
      if isAbortError e then
        ([.invoke attempt], .thrown e)
      else if attempt = maxAttempts then
        ([.invoke attempt], .thrown e)
      else if isRetryable e then
        match delays with
        | [] => ([.invoke attempt, .predCall e], .shiftOnEmpty)
        | currentDelayMs :: rest =>
          let next := withBackoffLoop maxAttempts isRetryable operation signal
            (attempt + 1) rest
          (.invoke attempt :: .predCall e :: .retryCall attempt currentDelayMs e ::
            .waitCall currentDelayMs :: next.1, next.2)
      else
        ([.invoke attempt, .predCall e], .thrown e)
  else
    ([], .thrown (.generic "Max attempts exceeded"))

/-- withBackoff from src/with-backoff.ts on already-merged options: generate
the delay list once up front, then run the loop from attempt 1. -/
def withBackoff {α : Type} (options : TBackoffOptionsM) (isRetryable : JsError → Bool)
    (operation : Nat → OpOutcome α) (randoms : Nat → Rat) : List Ev × BResult α :=
  let delays := createDelayList options randoms
  withBackoffLoop options.maxAttempts isRetryable operation options.signal 1 delays

/-- Attempt numbers of the operation invocations in a trace, in order. -/
def invokeAttempts (trace : List Ev) : List Nat :=
  trace.filterMap fun ev => match ev with | .invoke a => some a | _ => none

/-- Errors the isRetryable predicate was consulted on, in order. -/
def predCallErrors (trace : List Ev) : List JsError :=
  trace.filterMap fun ev => match ev with | .predCall e => some e | _ => none

/-- Attempt numbers passed to the onRetry observer, in order. -/
def retryAttempts (trace : List Ev) : List Nat :=
  trace.filterMap fun ev => match ev with | .retryCall a _ _ => some a | _ => none

/-- Delays passed to the onRetry observer, in order. -/
def retryDelays (trace : List Ev) : List Rat :=
  trace.filterMap fun ev => match ev with | .retryCall _ d _ => some d | _ => none

/-- Delays actually waited, in order. -/
def waitDelays (trace : List Ev) : List Rat :=
  trace.filterMap fun ev => match ev with | .waitCall d => some d | _ => none

/-- The nested cause object of a TError (only its optional code matters). -/
structure TCause where
  code : Option String
deriving DecidableEq

/-- The nested response object of a TError. -/
structure TResponse where
  statusCode : Option Nat
  status : Option Nat
deriving DecidableEq

/-- The structurally-typed TError from src/types.ts: an error value that may
carry a code, an HTTP status, a nested cause with a code, and a nested
response with a status. -/
structure TError where
  message : String
  code : Option String
  statusCode : Option Nat
  cause : Option TCause
  response : Option TResponse
deriving DecidableEq

/-- NETWORK_ERROR_CODES from src/errors.ts. -/
def NETWORK_ERROR_CODES : List String :=
  ["ECONNRESET", "ENOTFOUND", "ETIMEDOUT", "EPIPE", "ENETUNREACH", "ECONNABORTED",
   "ECONNREFUSED", "ENETDOWN", "ENETRESET", "EALREADY", "EAI_AGAIN", "EHOSTUNREACH"]

/-- isNetworkError from src/errors.ts: `const code = err.cause?.code ?? err.code;
return Boolean(code && NETWORK_ERROR_CODES.has(code));`.  The `??` falls back
to the error's own code only when the cause chain yields undefined, and the
truthiness test rejects the empty string. -/
def isNetworkError (err : TError) : Bool :=
  match (err.cause.bind TCause.code).orElse (fun _ => err.code) with
  | none => false
  | some code => decide (code ≠ "") && NETWORK_ERROR_CODES.contains code

/-- Membership of an optional code in the network-error code set. -/
def codeInNetworkSet : Option String → Bool
  | none => false
  | some c => NETWORK_ERROR_CODES.contains c

/-- Modelled from the claim wording: the error's own code is in the set, or its
nested cause's code is in the set (a plain disjunction, no precedence). -/
def ownOrCauseCodeRetryable (err : TError) : Bool :=
  codeInNetworkSet err.code || codeInNetworkSet (err.cause.bind TCause.code)

/-- Expected trace of a run whose every attempt fails retryably: starting at
attempt `a` with `m` retries left before the final throwing attempt, each
retry block records the invocation, the predicate call, the observer call with
the next delay in the list, and the wait, and the last attempt records only
its invocation. -/
def allFailTrace (e : Nat → JsError) : Nat → Nat → List Rat → List Ev
  | a, 0, _ => [.invoke a]
  | _, _ + 1, [] => []
  | a, m + 1, d :: ds =>
      .invoke a :: .predCall (e a) :: .retryCall a d (e a) :: .waitCall d ::
        allFailTrace e (a + 1) m ds

/-- Copy of an options record with the jitter field replaced, used to compare
a configuration against its zero-jitter variant. -/
def setJitter (o : TBackoffOptionsM) (j : Rat) : TBackoffOptionsM :=
  ⟨o.maxAttempts, o.delayMs, o.delayFactor, j, o.strategy, o.signal⟩

lemma createDelayList_length (options : TBackoffOptionsM) (randoms : Nat → Rat) :
    (createDelayList options randoms).length = options.maxAttempts := by
  unfold createDelayList
  cases options.strategy <;> simp

lemma forall₂_map_same {α β : Type} (R : β → β → Prop) (f g : α → β) :
    ∀ l : List α, (∀ x ∈ l, R (f x) (g x)) → List.Forall₂ R (l.map f) (l.map g) := by
  intro l
  induction l with
  | nil => intro _; simp
  | cons x xs ih =>
    intro h
    simp only [List.map_cons, List.forall₂_cons]
    exact ⟨h x (by simp), ih fun y hy => h y (by simp [hy])⟩

lemma withBackoffLoop_allFail {α : Type} (maxAttempts : Nat) (p : JsError → Bool)
    (op : Nat → OpOutcome α) (sig : Option AbortSignalM) (e : Nat → JsError)
    (hsig : signalAborted sig = false)
    (hop : ∀ k, 1 ≤ k → k ≤ maxAttempts →
      op k = OpOutcome.failure (e k) ∧ isAbortError (e k) = false ∧ p (e k) = true) :
    ∀ (m a : Nat) (ds : List Rat), 1 ≤ a → a + m = maxAttempts → m ≤ ds.length →
      withBackoffLoop maxAttempts p op sig a ds =
        (allFailTrace e a m ds, BResult.thrown (e maxAttempts)) := by
  intro m
  induction m with
  | zero =>
    intro a ds ha hsum _
    have haM : a = maxAttempts := by omega
    subst haM
    obtain ⟨hop1, hab1, _⟩ := hop a ha (by omega)
    rw [withBackoffLoop.eq_def]
    simp [hsig, hop1, hab1, allFailTrace]
  | succ m ih =>
    intro a ds ha hsum hlen
    cases ds with
    | nil => simp at hlen
    | cons d rest =>
      obtain ⟨hop1, hab1, hret1⟩ := hop a ha (by omega)
      have hne : ¬ a = maxAttempts := by omega
      have hle : a ≤ maxAttempts := by omega
      rw [withBackoffLoop.eq_def]
      simp only [hsig, Bool.false_eq_true, if_false, hle, if_true, hop1, hab1, hne, hret1]
      rw [ih (a + 1) rest (by omega) (by omega) (by simpa using hlen)]
      simp [allFailTrace]

lemma allFailTrace_invokeAttempts (e : Nat → JsError) :
    ∀ (m a : Nat) (ds : List Rat), m ≤ ds.length →
      invokeAttempts (allFailTrace e a m ds) = List.range' a (m + 1) := by
  intro m
  induction m with
  | zero => intro a ds _; simp [allFailTrace, invokeAttempts]
  | succ m ih =>
    intro a ds hlen
    cases ds with
    | nil => simp at hlen
    | cons d rest =>
      simp only [allFailTrace, invokeAttempts, List.filterMap_cons] at *
      rw [List.range'_succ]
      simpa [invokeAttempts] using ih (a + 1) rest (by simpa using hlen)

lemma allFailTrace_retryAttempts (e : Nat → JsError) :
    ∀ (m a : Nat) (ds : List Rat), m ≤ ds.length →
      retryAttempts (allFailTrace e a m ds) = List.range' a m := by
  intro m
  induction m with
  | zero => intro a ds _; simp [allFailTrace, retryAttempts]
  | succ m ih =>
    intro a ds hlen
    cases ds with
    | nil => simp at hlen
    | cons d rest =>
      simp only [allFailTrace, retryAttempts, List.filterMap_cons] at *
      rw [List.range'_succ]
      simpa [retryAttempts] using ih (a + 1) rest (by simpa using hlen)

lemma withBackoffLoop_no_shiftOnEmpty {α : Type} (maxA : Nat) (p : JsError → Bool)
    (op : Nat → OpOutcome α) (sig : Option AbortSignalM) :
    ∀ (ds : List Rat) (a : Nat), maxA ≤ a + ds.length →
      (withBackoffLoop maxA p op sig a ds).2 ≠ BResult.shiftOnEmpty := by
  intro ds
  induction ds with
  | nil =>
    intro a hlen
    rw [withBackoffLoop.eq_def]
    by_cases hs : signalAborted sig
    · simp [hs]
    · by_cases hle : a ≤ maxA
      · have haM : a = maxA := by simp at hlen; omega
        cases hop : op a with
        | success v => simp [hs, hle, hop]
        | failure e => simp [hs, hle, hop, haM]
      · simp [hs, hle]
  | cons d rest ih =>
    intro a hlen
    rw [withBackoffLoop.eq_def]
    by_cases hs : signalAborted sig
    · simp [hs]
    · by_cases hle : a ≤ maxA
      · cases hop : op a with
        | success v => simp [hs, hle, hop]
        | failure e =>
          by_cases hab : isAbortError e
          · simp [hs, hle, hop, hab]
          · by_cases haM : a = maxA
            · simp [hs, hle, hop, hab, haM]
            · by_cases hp : p e
              · simp only [hs, Bool.false_eq_true, if_false, hle, if_true, hop, hab, haM, hp]
                exact ih (a + 1) (by simp at hlen ⊢; omega)
              · simp [hs, hle, hop, hab, haM, hp]
      · simp [hs, hle]

lemma withBackoffLoop_delays_from_list {α : Type} (maxA : Nat) (p : JsError → Bool)
    (op : Nat → OpOutcome α) (sig : Option AbortSignalM) :
    ∀ (ds : List Rat) (a : Nat),
      (∀ d ∈ retryDelays (withBackoffLoop maxA p op sig a ds).1, d ∈ ds) ∧
      (∀ d ∈ waitDelays (withBackoffLoop maxA p op sig a ds).1, d ∈ ds) := by
  intro ds
  induction ds with
  | nil =>
    intro a
    rw [withBackoffLoop.eq_def]
    by_cases hs : signalAborted sig
    · simp [hs, retryDelays, waitDelays]
    · by_cases hle : a ≤ maxA
      · cases hop : op a with
        | success v => simp [hs, hle, hop, retryDelays, waitDelays]
        | failure e =>
          by_cases hab : isAbortError e
          · simp [hs, hle, hop, hab, retryDelays, waitDelays]
          · by_cases haM : a = maxA
            · simp [hs, hle, hop, hab, haM, retryDelays, waitDelays]
            · by_cases hp : p e
              · simp [hs, hle, hop, hab, haM, hp, retryDelays, waitDelays]
              · simp [hs, hle, hop, hab, haM, hp, retryDelays, waitDelays]
      · simp [hs, hle, retryDelays, waitDelays]
  | cons d rest ih =>
    intro a
    rw [withBackoffLoop.eq_def]
    by_cases hs : signalAborted sig
    · simp [hs, retryDelays, waitDelays]
    · by_cases hle : a ≤ maxA
      · cases hop : op a with
        | success v => simp [hs, hle, hop, retryDelays, waitDelays]
        | failure e =>
          by_cases hab : isAbortError e
          · simp [hs, hle, hop, hab, retryDelays, waitDelays]
          · by_cases haM : a = maxA
            · simp [hs, hle, hop, hab, haM, retryDelays, waitDelays]
            · by_cases hp : p e
              · simp only [hs, Bool.false_eq_true, if_false, hle, if_true, hop, hab, haM, hp]
                constructor
                · intro x hx
                  simp only [retryDelays, List.filterMap_cons] at hx
                  simp only [List.mem_cons] at hx ⊢
                  rcases hx with hx | hx
                  · exact Or.inl hx
                  · exact Or.inr ((ih (a + 1)).1 x hx)
                · intro x hx
                  simp only [waitDelays, List.filterMap_cons] at hx
                  simp only [List.mem_cons] at hx ⊢
                  rcases hx with hx | hx
                  · exact Or.inl hx
                  · exact Or.inr ((ih (a + 1)).2 x hx)
              · simp [hs, hle, hop, hab, haM, hp, retryDelays, waitDelays]
      · simp [hs, hle, retryDelays, waitDelays]

/-- C1: for maxAttempts = n ≥ 1 and an operation failing on every invocation
with a retryable non-AbortError error, withBackoff invokes the operation
exactly n times with attempt numbers 1..n, invokes the onRetry observer
exactly n−1 times with attempt numbers 1..n−1 in strictly increasing order,
and rejects with exactly the error thrown by the nth invocation, unwrapped.
The full trace equals allFailTrace, whose shape places each observer call
after that attempt's predicate call, before the corresponding wait, and before
the next invocation. -/
theorem withBackoff_allFail_spec {α : Type} (opts : TBackoffOptionsM) (p : JsError → Bool)
    (op : Nat → OpOutcome α) (r : Nat → Rat) (e : Nat → JsError)
    (h1 : 1 ≤ opts.maxAttempts) (hsig : signalAborted opts.signal = false)
    (hop : ∀ k, 1 ≤ k → k ≤ opts.maxAttempts → op k = OpOutcome.failure (e k))
    (hab : ∀ k, 1 ≤ k → k ≤ opts.maxAttempts → isAbortError (e k) = false)
    (hret : ∀ k, 1 ≤ k → k ≤ opts.maxAttempts → p (e k) = true) :
    (withBackoff opts p op r).1 =
        allFailTrace e 1 (opts.maxAttempts - 1) (createDelayList opts r) ∧
    invokeAttempts (withBackoff opts p op r).1 = List.range' 1 opts.maxAttempts ∧
    retryAttempts (withBackoff opts p op r).1 = List.range' 1 (opts.maxAttempts - 1) ∧
    (withBackoff opts p op r).2 = BResult.thrown (e opts.maxAttempts) := by
  have hlen := createDelayList_length opts r
  have hrun : withBackoff opts p op r =
      (allFailTrace e 1 (opts.maxAttempts - 1) (createDelayList opts r),
        BResult.thrown (e opts.maxAttempts)) := by
    unfold withBackoff
    exact withBackoffLoop_allFail opts.maxAttempts p op opts.signal e hsig
      (fun k hk1 hk2 => ⟨hop k hk1 hk2, hab k hk1 hk2, hret k hk1 hk2⟩)
      (opts.maxAttempts - 1) 1 (createDelayList opts r) le_rfl (by omega) (by omega)
  rw [hrun]
  refine ⟨rfl, ?_, ?_, rfl⟩
  · rw [allFailTrace_invokeAttempts e (opts.maxAttempts - 1) 1 (createDelayList opts r)
      (by omega)]
    congr 1
    omega
  · exact allFailTrace_retryAttempts e (opts.maxAttempts - 1) 1 (createDelayList opts r)
      (by omega)

/-- Witness for C1 at maxAttempts = 3 with an always-failing retryable operation. -/
theorem withBackoff_allFail_spec_witness :
    invokeAttempts (withBackoff (α := Nat) ⟨3, 5, 2, 0, TBackoffStrategy.exponential, none⟩
        (fun _ => true) (fun k => OpOutcome.failure (JsError.plain k)) (fun _ => 0)).1 =
      [1, 2, 3] ∧
    retryAttempts (withBackoff (α := Nat) ⟨3, 5, 2, 0, TBackoffStrategy.exponential, none⟩
        (fun _ => true) (fun k => OpOutcome.failure (JsError.plain k)) (fun _ => 0)).1 =
      [1, 2] ∧
    (withBackoff (α := Nat) ⟨3, 5, 2, 0, TBackoffStrategy.exponential, none⟩
        (fun _ => true) (fun k => OpOutcome.failure (JsError.plain k)) (fun _ => 0)).2 =
      BResult.thrown (JsError.plain 3) := by
  have h := withBackoff_allFail_spec (α := Nat) ⟨3, 5, 2, 0, TBackoffStrategy.exponential, none⟩
      (fun _ => true) (fun k => OpOutcome.failure (JsError.plain k)) (fun _ => 0) JsError.plain
      (by decide) rfl (fun k _ _ => rfl) (fun k _ _ => rfl) (fun k _ _ => rfl)
  exact ⟨h.2.1.trans (by decide), h.2.2.1.trans (by decide), h.2.2.2⟩

/-- C2: when the retryability predicate classifies the first failure as
non-retryable, the operation is invoked exactly once and its error is
rethrown unwrapped, whatever maxAttempts ≥ 1 is. -/
theorem withBackoff_nonretryable_first_failure {α : Type} (opts : TBackoffOptionsM)
    (p : JsError → Bool) (op : Nat → OpOutcome α) (r : Nat → Rat) (e : JsError)
    (h1 : 1 ≤ opts.maxAttempts) (hsig : signalAborted opts.signal = false)
    (hop : op 1 = OpOutcome.failure e) (hab : isAbortError e = false)
    (hp : p e = false) :
    invokeAttempts (withBackoff opts p op r).1 = [1] ∧
    (withBackoff opts p op r).2 = BResult.thrown e := by
  unfold withBackoff
  rw [withBackoffLoop.eq_def]
  by_cases hM : 1 = opts.maxAttempts
  · simp [hsig, ← hM, hop, hab, invokeAttempts]
  · simp [hsig, h1, hM, hop, hab, hp, invokeAttempts]

/-- Witness for C2 at maxAttempts = 3 with an always-false predicate. -/
theorem withBackoff_nonretryable_first_failure_witness :
    invokeAttempts (withBackoff (α := Nat) ⟨3, 5, 2, 0, TBackoffStrategy.exponential, none⟩
        (fun _ => false) (fun k => OpOutcome.failure (JsError.plain k)) (fun _ => 0)).1 =
      [1] ∧
    (withBackoff (α := Nat) ⟨3, 5, 2, 0, TBackoffStrategy.exponential, none⟩
        (fun _ => false) (fun k => OpOutcome.failure (JsError.plain k)) (fun _ => 0)).2 =
      BResult.thrown (JsError.plain 1) :=
  withBackoff_nonretryable_first_failure (α := Nat)
    ⟨3, 5, 2, 0, TBackoffStrategy.exponential, none⟩ (fun _ => false)
    (fun k => OpOutcome.failure (JsError.plain k)) (fun _ => 0) (JsError.plain 1)
    (by decide) rfl rfl rfl rfl

/-- C3: with maxAttempts = 1 and a failing non-AbortError first attempt, the
run is one invocation followed by the rethrow of that error, for every
predicate: the budget-exhausted check precedes the predicate check, so the
trace holds no predicate-call event at all. -/
theorem withBackoff_maxAttempts_one_skips_predicate {α : Type} (opts : TBackoffOptionsM)
    (op : Nat → OpOutcome α) (r : Nat → Rat) (e : JsError)
    (hmax : opts.maxAttempts = 1) (hsig : signalAborted opts.signal = false)
    (hop : op 1 = OpOutcome.failure e) (hab : isAbortError e = false) :
    ∀ p : JsError → Bool,
      withBackoff opts p op r = ([Ev.invoke 1], BResult.thrown e) ∧
      predCallErrors (withBackoff opts p op r).1 = [] := by
  intro p
  have hrun : withBackoff opts p op r = ([Ev.invoke 1], BResult.thrown e) := by
    unfold withBackoff
    rw [withBackoffLoop.eq_def]
    simp [hsig, hmax, hop, hab]
  exact ⟨hrun, by rw [hrun]; simp [predCallErrors]⟩

/-- Witness for C3 with an always-true predicate that is nevertheless skipped. -/
theorem withBackoff_maxAttempts_one_skips_predicate_witness :
    withBackoff (α := Nat) ⟨1, 5, 2, 0, TBackoffStrategy.exponential, none⟩ (fun _ => true)
        (fun k => OpOutcome.failure (JsError.plain k)) (fun _ => 0) =
      ([Ev.invoke 1], BResult.thrown (JsError.plain 1)) ∧
    predCallErrors (withBackoff (α := Nat) ⟨1, 5, 2, 0, TBackoffStrategy.exponential, none⟩
        (fun _ => true) (fun k => OpOutcome.failure (JsError.plain k)) (fun _ => 0)).1 = [] :=
  withBackoff_maxAttempts_one_skips_predicate (α := Nat)
    ⟨1, 5, 2, 0, TBackoffStrategy.exponential, none⟩
    (fun k => OpOutcome.failure (JsError.plain k)) (fun _ => 0) (JsError.plain 1)
    rfl rfl rfl rfl (fun _ => true)

/-- C7: a signal already aborted before the run makes withBackoff reject with
an AbortError carrying the signal's reason as its cause, with an empty trace:
the operation is never invoked. -/
theorem withBackoff_pre_aborted_signal {α : Type} (opts : TBackoffOptionsM)
    (p : JsError → Bool) (op : Nat → OpOutcome α) (r : Nat → Rat) (s : AbortSignalM)
    (hsig : opts.signal = some s) (hab : s.aborted = true) :
    withBackoff opts p op r =
      ([], BResult.thrown (JsError.abortError "Backoff aborted" (some s.reason))) ∧
    invokeAttempts (withBackoff opts p op r).1 = [] := by
  have hrun : withBackoff opts p op r =
      ([], BResult.thrown (JsError.abortError "Backoff aborted" (some s.reason))) := by
    unfold withBackoff
    rw [withBackoffLoop.eq_def]
    simp [signalAborted, hsig, hab]
  exact ⟨hrun, by rw [hrun]; simp [invokeAttempts]⟩

/-- Witness for C7 with reason 42. -/
theorem withBackoff_pre_aborted_signal_witness :
    withBackoff (α := Nat) ⟨3, 5, 2, 0, TBackoffStrategy.exponential, some ⟨true, 42⟩⟩
        (fun _ => true) (fun k => OpOutcome.failure (JsError.plain k)) (fun _ => 0) =
      ([], BResult.thrown (JsError.abortError "Backoff aborted" (some 42))) ∧
    invokeAttempts (withBackoff (α := Nat)
        ⟨3, 5, 2, 0, TBackoffStrategy.exponential, some ⟨true, 42⟩⟩
        (fun _ => true) (fun k => OpOutcome.failure (JsError.plain k)) (fun _ => 0)).1 = [] :=
  withBackoff_pre_aborted_signal (α := Nat)
    ⟨3, 5, 2, 0, TBackoffStrategy.exponential, some ⟨true, 42⟩⟩ (fun _ => true)
    (fun k => OpOutcome.failure (JsError.plain k)) (fun _ => 0) ⟨true, 42⟩ rfl rfl

/-- C9: an operation failure that is an instance of the library's AbortError
class is rethrown at once: a single invocation, no predicate call, no observer
call, no further attempt — even with no aborted signal — for every predicate
and maxAttempts ≥ 1. -/
theorem withBackoff_abortError_rethrown {α : Type} (opts : TBackoffOptionsM)
    (p : JsError → Bool) (op : Nat → OpOutcome α) (r : Nat → Rat) (e : JsError)
    (h1 : 1 ≤ opts.maxAttempts) (hsig : signalAborted opts.signal = false)
    (hop : op 1 = OpOutcome.failure e) (hab : isAbortError e = true) :
    withBackoff opts p op r = ([Ev.invoke 1], BResult.thrown e) ∧
    predCallErrors (withBackoff opts p op r).1 = [] ∧
    retryAttempts (withBackoff opts p op r).1 = [] := by
  have hrun : withBackoff opts p op r = ([Ev.invoke 1], BResult.thrown e) := by
    unfold withBackoff
    rw [withBackoffLoop.eq_def]
    simp [hsig, h1, hop, hab]
  exact ⟨hrun, by rw [hrun]; simp [predCallErrors], by rw [hrun]; simp [retryAttempts]⟩

/-- Witness for C9: an operation rejecting with an AbortError instance while
no signal was supplied at all. -/
theorem withBackoff_abortError_rethrown_witness :
    withBackoff (α := Nat) ⟨5, 5, 2, 0, TBackoffStrategy.exponential, none⟩ (fun _ => true)
        (fun _ => OpOutcome.failure (JsError.abortError "user abort" none)) (fun _ => 0) =
      ([Ev.invoke 1], BResult.thrown (JsError.abortError "user abort" none)) ∧
    predCallErrors (withBackoff (α := Nat) ⟨5, 5, 2, 0, TBackoffStrategy.exponential, none⟩
        (fun _ => true) (fun _ => OpOutcome.failure (JsError.abortError "user abort" none))
        (fun _ => 0)).1 = [] ∧
    retryAttempts (withBackoff (α := Nat) ⟨5, 5, 2, 0, TBackoffStrategy.exponential, none⟩
        (fun _ => true) (fun _ => OpOutcome.failure (JsError.abortError "user abort" none))
        (fun _ => 0)).1 = [] :=
  withBackoff_abortError_rethrown (α := Nat)
    ⟨5, 5, 2, 0, TBackoffStrategy.exponential, none⟩ (fun _ => true)
    (fun _ => OpOutcome.failure (JsError.abortError "user abort" none)) (fun _ => 0)
    (JsError.abortError "user abort" none) (by decide) rfl rfl rfl

/-- C10: the schedule-consumption step never runs on an empty list: the run
can never end in the shift-on-empty state, and every delay the observer sees
or the executor waits on is an entry of the generated delay list.  The list
generated up front has maxAttempts entries while at most maxAttempts − 1 are
ever consumed. -/
theorem withBackoff_never_shift_on_empty {α : Type} (opts : TBackoffOptionsM)
    (p : JsError → Bool) (op : Nat → OpOutcome α) (r : Nat → Rat) :
    (withBackoff opts p op r).2 ≠ BResult.shiftOnEmpty ∧
    (∀ d ∈ retryDelays (withBackoff opts p op r).1, d ∈ createDelayList opts r) ∧
    (∀ d ∈ waitDelays (withBackoff opts p op r).1, d ∈ createDelayList opts r) := by
  have hlen := createDelayList_length opts r
  refine ⟨?_, ?_, ?_⟩
  · exact withBackoffLoop_no_shiftOnEmpty opts.maxAttempts p op opts.signal
      (createDelayList opts r) 1 (by omega)
  · exact (withBackoffLoop_delays_from_list opts.maxAttempts p op opts.signal
      (createDelayList opts r) 1).1
  · exact (withBackoffLoop_delays_from_list opts.maxAttempts p op opts.signal
      (createDelayList opts r) 1).2

/-- C4 counterexample: the standalone generator does not return maxAttempts − 1
values.  With the claimed linear config (initialDelay 10, jitter 0,
maxAttempts 3) it returns the three-element list 10, 10, 10, not the claimed
two-element list 10, 10. -/
theorem createDelayList_length_claim_counterexample :
    createDelayList ⟨3, 10, 4, 0, TBackoffStrategy.linear, none⟩ (fun _ => 0) =
      [10, 10, 10] ∧
    (createDelayList ⟨3, 10, 4, 0, TBackoffStrategy.linear, none⟩ (fun _ => 0)).length ≠
      3 - 1 := by
  have h : createDelayList ⟨3, 10, 4, 0, TBackoffStrategy.linear, none⟩ (fun _ => 0) =
      [10, 10, 10] := by
    simp [createDelayList, List.range_succ]
  exact ⟨h, by rw [h]; decide⟩

/-- C4 amended: createDelayList returns an ordered sequence of exactly
maxAttempts delay values (one more than the executor ever consumes); the
linear example config yields 10, 10, 10. -/
theorem createDelayList_generates_maxAttempts_entries :
    (∀ (opts : TBackoffOptionsM) (r : Nat → Rat),
        (createDelayList opts r).length = opts.maxAttempts) ∧
    createDelayList ⟨3, 10, 4, 0, TBackoffStrategy.linear, none⟩ (fun _ => 0) =
      [10, 10, 10] := by
  refine ⟨createDelayList_length, ?_⟩
  simp [createDelayList, List.range_succ]

/-- C5: under the exponential strategy with zero jitter the raw delay at index
i is delayMs * delayFactor ^ i, and the concrete run with initialDelay 10,
delayFactor 2, jitter 0, maxAttempts 4 over an always-failing retryable
operation reports and waits exactly the delays 10, 20, 40 in generation
order. -/
theorem exponential_schedule_values :
    (∀ (opts : TBackoffOptionsM) (r : Nat → Rat),
        opts.strategy = TBackoffStrategy.exponential → opts.jitter = 0 →
        createDelayList opts r =
          (List.range opts.maxAttempts).map fun i => opts.delayMs * opts.delayFactor ^ i) ∧
    retryDelays (withBackoff (α := Nat) ⟨4, 10, 2, 0, TBackoffStrategy.exponential, none⟩
        (fun _ => true) (fun k => OpOutcome.failure (JsError.plain k)) (fun _ => 0)).1 =
      [10, 20, 40] ∧
    waitDelays (withBackoff (α := Nat) ⟨4, 10, 2, 0, TBackoffStrategy.exponential, none⟩
        (fun _ => true) (fun k => OpOutcome.failure (JsError.plain k)) (fun _ => 0)).1 =
      [10, 20, 40] := by
  refine ⟨?_, ?_, ?_⟩
  · intro opts r hstrat hjit
    simp [createDelayList, hstrat, hjit]
  · simp [withBackoff, withBackoffLoop, createDelayList, List.range_succ, signalAborted,
      isAbortError, retryDelays]
    norm_num
  · simp [withBackoff, withBackoffLoop, createDelayList, List.range_succ, signalAborted,
      isAbortError, waitDelays]
    norm_num

/-- Witness for C5: the universal part applied to the example exponential
config under an arbitrary nonzero random stream. -/
theorem exponential_schedule_values_witness :
    createDelayList ⟨4, 10, 2, 0, TBackoffStrategy.exponential, none⟩ (fun _ => 37) =
      [10, 20, 40, 80] := by
  rw [exponential_schedule_values.1 ⟨4, 10, 2, 0, TBackoffStrategy.exponential, none⟩
    (fun _ => 37) rfl rfl]
  simp [List.range_succ]
  norm_num

/-- C6: with zero jitter the generator ignores the random draws, so two calls
with identical config agree; with jitter in (0, 1] and per-entry draws in
[0, 1), the generated list has the same length as the zero-jitter list and is
pointwise at least the zero-jitter base value (the Forall₂ relation holds
exactly between lists of equal length). -/
theorem createDelayList_deterministic_and_jitter_additive :
    (∀ (opts : TBackoffOptionsM) (r1 r2 : Nat → Rat), opts.jitter = 0 →
        createDelayList opts r1 = createDelayList opts r2) ∧
    (∀ (opts : TBackoffOptionsM) (r : Nat → Rat),
        0 ≤ opts.delayMs → 0 ≤ opts.delayFactor → 0 < opts.jitter → opts.jitter ≤ 1 →
        (∀ i, 0 ≤ r i) → (∀ i, r i < 1) →
        (createDelayList (setJitter opts 0) r).length = (createDelayList opts r).length ∧
        List.Forall₂ (fun b x => b ≤ x)
          (createDelayList (setJitter opts 0) r) (createDelayList opts r)) := by
  constructor
  · intro opts r1 r2 hjit
    simp [createDelayList, hjit]
  · intro opts r hdm hdf hj0 _ hr0 _
    have hforall : List.Forall₂ (fun b x => b ≤ x)
        (createDelayList (setJitter opts 0) r) (createDelayList opts r) := by
      unfold createDelayList setJitter
      cases opts.strategy with
      | exponential =>
        simp only [mul_zero, zero_mul, add_zero]
        refine forall₂_map_same _ _ _ _ fun i _ => ?_
        have hbase : 0 ≤ opts.delayMs * opts.delayFactor ^ i :=
          mul_nonneg hdm (pow_nonneg hdf i)
        have : 0 ≤ opts.delayMs * opts.delayFactor ^ i * opts.jitter * r i :=
          mul_nonneg (mul_nonneg hbase (le_of_lt hj0)) (hr0 i)
        linarith
      | linear =>
        simp only [mul_zero, zero_mul, add_zero]
        refine forall₂_map_same _ _ _ _ fun i _ => ?_
        have : 0 ≤ opts.delayMs * opts.jitter * r i :=
          mul_nonneg (mul_nonneg hdm (le_of_lt hj0)) (hr0 i)
        linarith
    exact ⟨hforall.length_eq, hforall⟩

/-- Witness for C6: determinism at the linear example config, and additivity
of a 1/2 jitter under the constant draw 1/2 for a two-entry exponential
config. -/
theorem createDelayList_deterministic_and_jitter_additive_witness :
    createDelayList ⟨3, 10, 4, 0, TBackoffStrategy.linear, none⟩ (fun _ => 0) =
      createDelayList ⟨3, 10, 4, 0, TBackoffStrategy.linear, none⟩ (fun i => (i : Rat) / 2) ∧
    List.Forall₂ (fun b x => b ≤ x)
      (createDelayList (setJitter ⟨2, 10, 2, 1 / 2, TBackoffStrategy.exponential, none⟩ 0)
        (fun _ => 1 / 2))
      (createDelayList ⟨2, 10, 2, 1 / 2, TBackoffStrategy.exponential, none⟩
        (fun _ => 1 / 2)) := by
  refine ⟨createDelayList_deterministic_and_jitter_additive.1 _ _ _ rfl, ?_⟩
  exact (createDelayList_deterministic_and_jitter_additive.2
    ⟨2, 10, 2, 1 / 2, TBackoffStrategy.exponential, none⟩ (fun _ => 1 / 2)
    (by norm_num) (by norm_num) (by norm_num) (by norm_num)
    (fun i => by norm_num) (fun i => by norm_num)).2

/-- C8 counterexample: isNetworkError is not the plain disjunction "own code in
the set, or nested cause code in the set".  For an error whose own code is
ECONNRESET but whose nested cause carries the unknown code EFOO, the cause's
code takes precedence and the function returns false while the disjunction
holds. -/
theorem isNetworkError_disjunction_counterexample :
    isNetworkError ⟨"", some "ECONNRESET", none, some ⟨some "EFOO"⟩, none⟩ = false ∧
    ownOrCauseCodeRetryable ⟨"", some "ECONNRESET", none, some ⟨some "EFOO"⟩, none⟩ =
      true := by
  decide

/-- C8 amended: isNetworkError returns true iff the effective code — the
nested cause's code when defined, otherwise the error's own code — is a
member of the fixed twelve-element network code set; in particular an error
whose nested cause has code ECONNRESET yields true, and an error with status
503 and no code yields false. -/
theorem isNetworkError_effective_code_spec :
    (∀ err : TError, isNetworkError err = true ↔
        ∃ c, (err.cause.bind TCause.code).orElse (fun _ => err.code) = some c ∧
          c ∈ NETWORK_ERROR_CODES) ∧
    isNetworkError ⟨"", none, none, some ⟨some "ECONNRESET"⟩, none⟩ = true ∧
    isNetworkError ⟨"", none, some 503, none, none⟩ = false := by
  refine ⟨?_, by decide, by decide⟩
  intro err
  unfold isNetworkError
  cases h : (err.cause.bind TCause.code).orElse (fun _ => err.code) with
  | none => simp
  | some c =>
    simp only [Bool.and_eq_true, decide_eq_true_eq]
    constructor
    · rintro ⟨_, hmem⟩
      exact ⟨c, rfl, by simpa using hmem⟩
    · rintro ⟨d, hd, hmem⟩
      have hdc : c = d := by injection hd
      subst hdc
      refine ⟨?_, by simpa using hmem⟩
      intro h0
      subst h0
      revert hmem
      decide

end WithBackoff
